import Mathlib

/-!
Verification development for the `onnx-git-flow` repository.

The repository contains two Python implementations of the same small tool:
the top-level script `git-feature.py` and the packaged module
`onnx_git_feature/__main__.py`.  Both are embedded below, the script in
namespace `Script` and the packaged module in namespace `Module`.

The tool shells out to an external version-control binary.  The embedding
replaces those subprocess calls by explicit inputs:
  * the output lines of the remote-listing query (`remotes : List String`,
    the result of `.decode('UTF-8').split('\n')`, so no line contains a
    newline character);
  * the current branch name and the two branch-existence queries
    (`currentBranch`, `localHasBranch`, `originHasBranch`);
  * an exit-status oracle `ok : Nat → Bool` giving, for each position `i`
    of the command sequence passed to the sequencer, whether the external
    command invoked at that position exits with status zero.
-/

/-! ## A small regular-expression engine

The Python sources match remote lines with `re.match(pattern, line)`.
Every pattern used in the sources is of the form `P\s*$` (anchored at the
start by `re.match` and at the end by `$`); since the matched lines come
from splitting on newlines they contain no `'\n'`, so `re.match` succeeds
exactly when the whole line belongs to the language of `P\s*`.  We model
this with a Brzozowski-derivative matcher over a regex syntax that covers
the constructs appearing in the sources: literals, character classes
(`[a-zA-Z\-]`, `[a-zA-Z0-9\-]`, `\s`), option `(...)?,` and star/plus. -/

inductive Regex where
  | fail : Regex
  | eps : Regex
  | cls : (Char → Bool) → Regex
  | cat : Regex → Regex → Regex
  | alt : Regex → Regex → Regex
  | star : Regex → Regex

def Regex.nullable : Regex → Bool
  | .fail => false
  | .eps => true
  | .cls _ => false
  | .cat r s => r.nullable && s.nullable
  | .alt r s => r.nullable || s.nullable
  | .star _ => true

/-- Smart `alt` constructor (keeps derivative terms small). -/
def Regex.altS : Regex → Regex → Regex
  | .fail, s => s
  | r, .fail => r
  | r, s => .alt r s

/-- Smart `cat` constructor (keeps derivative terms small). -/
def Regex.catS : Regex → Regex → Regex
  | .fail, _ => .fail
  | _, .fail => .fail
  | .eps, s => s
  | r, .eps => r
  | r, s => .cat r s

def Regex.deriv : Regex → Char → Regex
  | .fail, _ => .fail
  | .eps, _ => .fail
  | .cls p, c => if p c then .eps else .fail
  | .cat r s, c =>
      if r.nullable then Regex.altS (Regex.catS (r.deriv c) s) (s.deriv c)
      else Regex.catS (r.deriv c) s
  | .alt r s, c => Regex.altS (r.deriv c) (s.deriv c)
  | .star r, c => Regex.catS (r.deriv c) (.star r)

/-- Whole-string matching: the model of `re.match(pattern ++ "$", line)`
for newline-free `line`. -/
def Regex.matches1 (r : Regex) (s : String) : Bool :=
  (s.data.foldl Regex.deriv r).nullable

/-- A literal string, regex-escaped in the Python sources
(for example `https://github\.com/onnx/`, whose language is the plain
text `https://github.com/onnx/`). -/
def Regex.lit (s : String) : Regex :=
  s.data.foldr (fun c r => Regex.cat (Regex.cls fun d => d == c) r) Regex.eps

/-- The `(...)?` postfix of the sources. -/
def Regex.opt (r : Regex) : Regex := Regex.alt Regex.eps r

/-- The `+` postfix of the sources. -/
def Regex.plus (r : Regex) : Regex := Regex.cat r (Regex.star r)

/-- The `[a-zA-Z\-]` character class of `git-feature.py`. -/
def alphaDashChar (c : Char) : Bool :=
  (decide ('a' ≤ c) && decide (c ≤ 'z')) ||
  (decide ('A' ≤ c) && decide (c ≤ 'Z')) ||
  c == '-'

/-- The `[a-zA-Z0-9\-]` character class of `onnx_git_feature/__main__.py`. -/
def alnumDashChar (c : Char) : Bool :=
  alphaDashChar c || (decide ('0' ≤ c) && decide (c ≤ '9'))

/-- The `\s` character class (Python `re`, ASCII part; the remote lines
are ASCII). -/
def spaceChar (c : Char) : Bool :=
  c == ' ' || c == '\t' || c == '\n' || c == '\r' || c == '\x0b' || c == '\x0c'

/-- The `\s*$` tail shared by every pattern in the sources. -/
def wsStar : Regex := Regex.star (Regex.cls spaceChar)

/-- `_contains(list, regex)` from both sources: `True` iff some item of the
list matches the regex via `re.match`.  All call sites pass `$`-anchored
patterns, so `re.match` is whole-string matching here. -/
def containsMatch (lines : List String) (r : Regex) : Bool :=
  lines.any fun l => r.matches1 l

example : (Regex.lit "abc").matches1 "abc" = true := by decide
example : (Regex.lit "abc").matches1 "abd" = false := by decide
example :
    (Regex.cat (Regex.lit "x") (Regex.cat (Regex.plus (Regex.cls alnumDashChar))
      (Regex.cat (Regex.opt (Regex.lit ".git")) wsStar))).matches1 "xab9-.git  " = true := by
  decide

/-! ## The command sequencer (`_exec` in both sources, identical code)

A command is the argument vector handed to the external binary; rendering
a command for display is `" ".join(command)`.  `_exec` first prints the
planned sequence, then runs the commands in order.  On the first command
with a non-zero exit status it prints a failure report and terminates the
process with exit status 1; the report shows the failed command and, when
it was not the last one, the remaining commands in original order, each
rendered; for the last command it instead asks the user to rerun just
that command. -/

abbrev Cmd := List String

/-- `" ".join(command)`. -/
def renderCmd (c : Cmd) : String := String.intercalate " " c

/-- The failure block printed by `_exec` inside the `except` branch:
the rendered failed command, whether the "last command, just rerun it"
message was chosen (`i == len(commands)-1`), and the rendered remaining
commands printed by the `for j in range(i + 1, len(commands))` loop. -/
structure FailureReport where
  failedCmd : String
  rerunLast : Bool
  remaining : List String
  deriving DecidableEq

/-- The observable outcome of one `_exec` call: the commands actually
handed to the external binary (in order), the failure block if one was
printed, and `some 1` when `_exec` terminated the process via `exit(1)`
(`none` when it returned normally). -/
structure ExecResult where
  executed : List Cmd
  failureReport : Option FailureReport
  exitCode : Option Nat
  deriving DecidableEq

/-- The `for i in range(len(commands))` loop of `_exec`, written as
structural recursion on the suffix of commands still to run: `n` is
`len(commands)`, `i` the current loop index, and the list argument is
`commands[i:]`.  `ok i` is the exit-status oracle for the command run at
position `i`. -/
def execGo (ok : Nat → Bool) (n : Nat) : Nat → List Cmd → ExecResult
  | _, [] => { executed := [], failureReport := none, exitCode := none }
  | i, c :: rest =>
    if ok i then
      let r := execGo ok n (i + 1) rest
      { r with executed := c :: r.executed }
    else
      { executed := [c],
        failureReport := some
          (if i = n - 1 then
            { failedCmd := renderCmd c, rerunLast := true, remaining := [] }
          else
            { failedCmd := renderCmd c, rerunLast := false,
              remaining := rest.map renderCmd }),
        exitCode := some 1 }

/-- `_exec(commands)` under the exit-status oracle `ok`. -/
def execCmds (cmds : List Cmd) (ok : Nat → Bool) : ExecResult :=
  execGo ok cmds.length 0 cmds

example :
    execCmds [["git", "fetch"], ["git", "rebase"]] (fun i => i == 0) =
      { executed := [["git", "fetch"], ["git", "rebase"]],
        failureReport := some
          { failedCmd := "git rebase", rerunLast := true, remaining := [] },
        exitCode := some 1 } := by decide

/-! ## Shared application-level data

`RunEnv` packages the environment read through subprocess queries; the
`Action` type is the `choices` of the positional `action` argument. -/

structure RunEnv where
  remotes : List String
  currentBranch : String
  localHasBranch : String → Bool
  originHasBranch : String → Bool
  ok : Nat → Bool

inductive GFAction where
  | create | rebase | push | remove
  deriving DecidableEq

/-- The result of one action method: either the not-found error of
`_remove_feature_action` (printed, then `exit(1)`), or a call of `_exec`
on the built command list. -/
inductive ActionResult where
  | notFound : String → ActionResult
  | ran : List Cmd → ExecResult → ActionResult
  deriving DecidableEq

def ActionResult.isNotFound : ActionResult → Bool
  | .notFound _ => true
  | .ran _ _ => false

/-- The observable outcome of a whole program run (`GitFeatureApp.run`):
the validator's error if it rejected, the action outcome if the validator
passed, and the process exit status. -/
structure RunResult where
  validatorError : Option String
  action : Option ActionResult
  exitCode : Nat
  deriving DecidableEq

/-! ## The packaged module `onnx_git_feature/__main__.py` -/

namespace Module

/-- `OFFICIAL_REPO_URL_PREFIXES` (the strings in the source are
regex-escaped; their languages are these plain texts). -/
def OFFICIAL_REPO_URL_PREFIXES : List String :=
  ["https://github.com/onnx/",
   "git@github.com:onnx/",
   "https://github.com/caffe2/",
   "git@github.com:caffe2/"]

/-- `"upstream\t%s[a-zA-Z0-9\-]+(\.git)? \(MODE\)\s*$" % p` where `MODE`
is `fetch` or `push`. -/
def upstream_pat (p : String) (mode : String) : Regex :=
  Regex.cat (Regex.lit ("upstream\t" ++ p))
    (Regex.cat (Regex.plus (Regex.cls alnumDashChar))
      (Regex.cat (Regex.opt (Regex.lit ".git"))
        (Regex.cat (Regex.lit (" (" ++ mode ++ ")")) wsStar)))

/-- `"origin\thttps://github\.com/[a-zA-Z0-9\-]+/[a-zA-Z0-9\-]+(\.git)? \(MODE\)\s*$"`. -/
def origin_https_pat (mode : String) : Regex :=
  Regex.cat (Regex.lit "origin\thttps://github.com/")
    (Regex.cat (Regex.plus (Regex.cls alnumDashChar))
      (Regex.cat (Regex.lit "/")
        (Regex.cat (Regex.plus (Regex.cls alnumDashChar))
          (Regex.cat (Regex.opt (Regex.lit ".git"))
            (Regex.cat (Regex.lit (" (" ++ mode ++ ")")) wsStar)))))

/-- `"origin\tgit@github\.com:[a-zA-Z0-9\-]+/[a-zA-Z0-9\-]+(\.git)? \(MODE\)\s*$"`. -/
def origin_ssh_pat (mode : String) : Regex :=
  Regex.cat (Regex.lit "origin\tgit@github.com:")
    (Regex.cat (Regex.plus (Regex.cls alnumDashChar))
      (Regex.cat (Regex.lit "/")
        (Regex.cat (Regex.plus (Regex.cls alnumDashChar))
          (Regex.cat (Regex.opt (Regex.lit ".git"))
            (Regex.cat (Regex.lit (" (" ++ mode ++ ")")) wsStar)))))

/-- `"origin\t%s[a-zA-Z0-9\-]+(\.git)? \(fetch\)\s*$" % p`, the pattern of
the fork-only check. -/
def origin_official_pat (p : String) : Regex :=
  Regex.cat (Regex.lit ("origin\t" ++ p))
    (Regex.cat (Regex.plus (Regex.cls alnumDashChar))
      (Regex.cat (Regex.opt (Regex.lit ".git"))
        (Regex.cat (Regex.lit " (fetch)") wsStar)))

/-- The condition of the first/second `_check`: some official prefix
matches the `upstream` line for the given mode. -/
def upstream_ok (remotes : List String) (mode : String) : Bool :=
  OFFICIAL_REPO_URL_PREFIXES.any fun p => containsMatch remotes (upstream_pat p mode)

/-- The condition of the third/fourth `_check`: the `origin` line for the
given mode matches the generic HTTPS or SSH pattern. -/
def origin_generic_ok (remotes : List String) (mode : String) : Bool :=
  containsMatch remotes (origin_https_pat mode) || containsMatch remotes (origin_ssh_pat mode)

/-- The `any(...)` inside the fifth `_check` (fork-only policy): the
`origin` fetch line matches some official prefix. -/
def origin_official_fetch (remotes : List String) : Bool :=
  OFFICIAL_REPO_URL_PREFIXES.any fun p => containsMatch remotes (origin_official_pat p)

/-- `_repo_setup_checks`: the five `_check` calls in source order; the
first failing one prints its message and exits, modelled by `some msg`;
`none` means all checks passed. -/
def repo_setup_checks (remotes : List String) : Option String :=
  if !(upstream_ok remotes "fetch") then
    some "Remote repository \x27upstream\x27 not setup correctly (fetch)"
  else if !(upstream_ok remotes "push") then
    some "Remote repository \x27upstream\x27 not setup correctly (push)"
  else if !(origin_generic_ok remotes "fetch") then
    some "Remote repository \x27origin\x27 not setup correctly (fetch)"
  else if !(origin_generic_ok remotes "push") then
    some "Remote repository \x27origin\x27 not setup correctly (push)"
  else if origin_official_fetch remotes then
    some "Remote repository \x27origin\x27 points to official repository. Please point it to your own fork."
  else
    none

/-- The command list of `_create_feature_action`. -/
def create_feature_commands (f : String) : List Cmd :=
  [["git", "fetch", "upstream"],
   ["git", "checkout", "-b", f, "upstream/master", "--no-track"],
   ["git", "submodule", "update", "--init", "--recursive"],
   ["git", "push", "--set-upstream", "origin", f]]

/-- The command list of `_rebase_feature_action`. -/
def rebase_feature_commands (f : String) : List Cmd :=
  [["git", "fetch", "upstream"],
   ["git", "checkout", f],
   ["git", "rebase", "upstream/master"],
   ["git", "submodule", "update", "--init", "--recursive"]]

/-- The command list of `_push_feature_action`. -/
def push_feature_commands (f : String) : List Cmd :=
  [["git", "push", "--set-upstream", "origin", f]]

/-- The conditionally-built command list of `_remove_feature_action`:
three `if` statements appending, in order, the checkout of
`upstream/master`, the local branch deletion, and the remote branch
deletion (`':%s' % feature_name`). -/
def remove_feature_commands (env : RunEnv) (f : String) : List Cmd :=
  (if env.currentBranch = f then [["git", "checkout", "upstream/master"]] else []) ++
  (if env.localHasBranch f then [["git", "branch", "-d", f]] else []) ++
  (if env.originHasBranch f then [["git", "push", "origin", ":" ++ f]] else [])

/-- `_remove_feature_action`: build the list; if it is empty, print the
not-found error and exit, otherwise hand the list to `_exec`. -/
def remove_feature_action (env : RunEnv) (f : String) : ActionResult :=
  let cmds := remove_feature_commands env f
  if cmds = [] then
    .notFound ("Branch \x27" ++ f ++ "\x27 not found, neither in local repository nor in \x27origin\x27 remote")
  else
    .ran cmds (execCmds cmds env.ok)

/-- Dispatch of `self._action()`. -/
def run_action (env : RunEnv) : GFAction → String → ActionResult
  | .create, f => .ran (create_feature_commands f) (execCmds (create_feature_commands f) env.ok)
  | .rebase, f => .ran (rebase_feature_commands f) (execCmds (rebase_feature_commands f) env.ok)
  | .push, f => .ran (push_feature_commands f) (execCmds (push_feature_commands f) env.ok)
  | .remove, f => remove_feature_action env f

/-- The command list the chosen action hands (or would hand) to `_exec`. -/
def action_commands (env : RunEnv) : GFAction → String → List Cmd
  | .create, f => create_feature_commands f
  | .rebase, f => rebase_feature_commands f
  | .push, f => push_feature_commands f
  | .remove, f => remove_feature_commands env f

/-- The process exit status produced by an action: 1 when
`_remove_feature_action` raised the not-found error (`_error` calls
`exit(1)`) or when `_exec` called `exit(1)`, else 0 (normal return of
`main`). -/
def actionExitCode : ActionResult → Nat
  | .notFound _ => 1
  | .ran _ r => match r.exitCode with | some c => c | none => 0

/-- `GitFeatureApp.run`: `_repo_setup_checks` first (a failing check exits
with status 1 before the action runs), then the action; the process exit
status is 1 if the action raised the not-found error or `_exec` exited,
and 0 when `main` returns normally. -/
def runApp (env : RunEnv) (a : GFAction) (f : String) : RunResult :=
  match repo_setup_checks env.remotes with
  | some msg => { validatorError := some msg, action := none, exitCode := 1 }
  | none =>
    let ar := run_action env a f
    { validatorError := none, action := some ar, exitCode := actionExitCode ar }

end Module

/-! ## The top-level script `git-feature.py` -/

namespace Script

/-- `"upstream\thttps://github\.com/onnx/onnx(\.git)? \(MODE\)\s*$"`. -/
def upstream_https_pat (mode : String) : Regex :=
  Regex.cat (Regex.lit "upstream\thttps://github.com/onnx/onnx")
    (Regex.cat (Regex.opt (Regex.lit ".git"))
      (Regex.cat (Regex.lit (" (" ++ mode ++ ")")) wsStar))

/-- `"upstream\tgit@github\.com:onnx/onnx(\.git)? \(MODE\)\s*$"`. -/
def upstream_ssh_pat (mode : String) : Regex :=
  Regex.cat (Regex.lit "upstream\tgit@github.com:onnx/onnx")
    (Regex.cat (Regex.opt (Regex.lit ".git"))
      (Regex.cat (Regex.lit (" (" ++ mode ++ ")")) wsStar))

/-- `"origin\thttps://github\.com/[a-zA-Z\-]+/onnx(\.git)? \(MODE\)\s*$"`. -/
def origin_https_pat (mode : String) : Regex :=
  Regex.cat (Regex.lit "origin\thttps://github.com/")
    (Regex.cat (Regex.plus (Regex.cls alphaDashChar))
      (Regex.cat (Regex.lit "/onnx")
        (Regex.cat (Regex.opt (Regex.lit ".git"))
          (Regex.cat (Regex.lit (" (" ++ mode ++ ")")) wsStar))))

/-- `"origin\tgit@github\.com:[a-zA-Z\-]+/onnx(\.git)? \(MODE\)\s*$"`. -/
def origin_ssh_pat (mode : String) : Regex :=
  Regex.cat (Regex.lit "origin\tgit@github.com:")
    (Regex.cat (Regex.plus (Regex.cls alphaDashChar))
      (Regex.cat (Regex.lit "/onnx")
        (Regex.cat (Regex.opt (Regex.lit ".git"))
          (Regex.cat (Regex.lit (" (" ++ mode ++ ")")) wsStar))))

/-- `_repo_setup_checks` of the script: four `_check` calls (no fork-only
check); `some msg` is the message of the first failing check, `none`
means all passed. -/
def repo_setup_checks (remotes : List String) : Option String :=
  if !(containsMatch remotes (upstream_https_pat "fetch") ||
       containsMatch remotes (upstream_ssh_pat "fetch")) then
    some "Remote repository \x27upstream\x27 not setup correctly"
  else if !(containsMatch remotes (upstream_https_pat "push") ||
            containsMatch remotes (upstream_ssh_pat "push")) then
    some "Remote repository \x27upstream\x27 not setup correctly"
  else if !(containsMatch remotes (origin_https_pat "fetch") ||
            containsMatch remotes (origin_ssh_pat "fetch")) then
    some "Remote repository \x27origin\x27 not setup correctly"
  else if !(containsMatch remotes (origin_https_pat "push") ||
            containsMatch remotes (origin_ssh_pat "push")) then
    some "Remote repository \x27origin\x27 not setup correctly"
  else
    none

/-- The command list of the script's `_create_feature_action`. -/
def create_feature_commands (f : String) : List Cmd :=
  [["git", "fetch", "upstream"],
   ["git", "checkout", "-b", f, "upstream/master", "--no-track"],
   ["git", "submodule", "update", "--init", "--recursive"],
   ["git", "push", "--set-upstream", "origin", f]]

/-- The command list of the script's `_rebase_feature_action` (note the
fourth command: `['git', 'submodule', '--init', '--recursive']`, without
`update`). -/
def rebase_feature_commands (f : String) : List Cmd :=
  [["git", "fetch", "upstream"],
   ["git", "checkout", f],
   ["git", "rebase", "upstream/master"],
   ["git", "submodule", "--init", "--recursive"]]

/-- The command list of the script's `_push_feature_action`. -/
def push_feature_commands (f : String) : List Cmd :=
  [["git", "push", "--set-upstream", "origin", f]]

end Script

/-! ## Sequencer lemmas -/

/-- If every command from position `k` on succeeds, the loop runs the
whole remaining suffix, prints no failure block and returns normally. -/
theorem execGo_all_ok (cmds : List Cmd) (ok : Nat → Bool) :
    ∀ d k, cmds.length - k = d →
      (∀ j, k ≤ j → j < cmds.length → ok j = true) →
      execGo ok cmds.length k (cmds.drop k) =
        { executed := cmds.drop k, failureReport := none, exitCode := none } := by
  intro d
  induction d with
  | zero =>
    intro k hd _
    have hk : cmds.length ≤ k := by omega
    rw [List.drop_eq_nil_of_le hk]
    rfl
  | succ d ih =>
    intro k hd hok
    have hk : k < cmds.length := by omega
    rw [List.drop_eq_getElem_cons hk]
    simp only [execGo, hok k le_rfl hk, if_true]
    rw [ih (k + 1) (by omega) (fun j h1 h2 => hok j (by omega) h2)]

/-- If all commands succeed, `_exec` runs them all in order and returns
normally. -/
theorem execCmds_all_ok (cmds : List Cmd) (ok : Nat → Bool)
    (hok : ∀ j, j < cmds.length → ok j = true) :
    execCmds cmds ok =
      { executed := cmds, failureReport := none, exitCode := none } := by
  have h := execGo_all_ok cmds ok (cmds.length - 0) 0 rfl (fun j _ h2 => hok j h2)
  simpa [execCmds] using h

/-- If the commands from position `k` up to (excluding) `i` succeed and
the command at position `i` fails, the loop starting at `k` runs exactly
the commands at positions `k` … `i`, prints the failure block of the
source (rerun-only when `i` is the last position, otherwise the rendered
remaining commands in original order) and exits with status 1. -/
theorem execGo_first_fail (cmds : List Cmd) (ok : Nat → Bool) (i : Nat)
    (hi : i < cmds.length) (hf : ok i = false) :
    ∀ d k, i - k = d → k ≤ i →
      (∀ j, k ≤ j → j < i → ok j = true) →
      execGo ok cmds.length k (cmds.drop k) =
        { executed := (cmds.drop k).take (i + 1 - k),
          failureReport := some
            (if i = cmds.length - 1 then
              { failedCmd := renderCmd cmds[i], rerunLast := true, remaining := [] }
            else
              { failedCmd := renderCmd cmds[i], rerunLast := false,
                remaining := (cmds.drop (i + 1)).map renderCmd }),
          exitCode := some 1 } := by
  intro d
  induction d with
  | zero =>
    intro k hd hk _
    have hki : k = i := by omega
    subst hki
    rw [List.drop_eq_getElem_cons hi]
    simp only [execGo, hf, Bool.false_eq_true, if_false]
    have htake : k + 1 - k = 1 := by omega
    rw [htake]
    rw [show (1 : Nat) = 0 + 1 from rfl, List.take_succ_cons, List.take_zero]
  | succ d ih =>
    intro k hd hk hok
    have hki : k < i := by omega
    have hkl : k < cmds.length := by omega
    rw [List.drop_eq_getElem_cons hkl]
    simp only [execGo, hok k le_rfl hki, if_true]
    rw [ih (k + 1) (by omega) (by omega) (fun j h1 h2 => hok j (by omega) h2)]
    have harith : i + 1 - k = (i + 1 - (k + 1)) + 1 := by omega
    rw [harith]
    rw [List.take_succ_cons]

/-- Unfolding of the loop step when the command at position `i` succeeds. -/
theorem execGo_cons_ok (ok : Nat → Bool) (n i : Nat) (c : Cmd) (rest : List Cmd)
    (h : ok i = true) :
    execGo ok n i (c :: rest) =
      { execGo ok n (i + 1) rest with
        executed := c :: (execGo ok n (i + 1) rest).executed } := by
  simp [execGo, h]

/-- Unfolding of the loop step when the command at position `i` fails. -/
theorem execGo_cons_fail (ok : Nat → Bool) (n i : Nat) (c : Cmd) (rest : List Cmd)
    (h : ok i = false) :
    execGo ok n i (c :: rest) =
      { executed := [c],
        failureReport := some
          (if i = n - 1 then
            { failedCmd := renderCmd c, rerunLast := true, remaining := [] }
          else
            { failedCmd := renderCmd c, rerunLast := false,
              remaining := rest.map renderCmd }),
        exitCode := some 1 } := by
  simp [execGo, h]

/-- The loop either returns normally or exits with status 1. -/
theorem execGo_exit_cases (ok : Nat → Bool) (n : Nat) :
    ∀ (l : List Cmd) (i : Nat),
      (execGo ok n i l).exitCode = none ∨ (execGo ok n i l).exitCode = some 1 := by
  intro l
  induction l with
  | nil => intro i; left; rfl
  | cons c rest ih =>
    intro i
    cases hok : ok i with
    | false => right; rw [execGo_cons_fail ok n i c rest hok]
    | true => rw [execGo_cons_ok ok n i c rest hok]; exact ih (i + 1)

/-- The loop returns normally exactly when every remaining command
succeeds. -/
theorem execGo_exit_none_iff (ok : Nat → Bool) (n : Nat) :
    ∀ (l : List Cmd) (i : Nat),
      ((execGo ok n i l).exitCode = none ↔
        ∀ j, i ≤ j → j < i + l.length → ok j = true) := by
  intro l
  induction l with
  | nil =>
    intro i
    constructor
    · intro _ j h1 h2
      simp only [List.length_nil, Nat.add_zero] at h2
      exact absurd h1 (by omega)
    · intro _; rfl
  | cons c rest ih =>
    intro i
    cases hok : ok i with
    | false =>
      rw [execGo_cons_fail ok n i c rest hok]
      constructor
      · intro h; exact absurd h (by simp)
      · intro h
        have hh := h i le_rfl (by simp)
        rw [hok] at hh
        exact absurd hh (by simp)
    | true =>
      rw [execGo_cons_ok ok n i c rest hok]
      have hproj :
          ({ execGo ok n (i + 1) rest with
             executed := c :: (execGo ok n (i + 1) rest).executed }).exitCode =
            (execGo ok n (i + 1) rest).exitCode := rfl
      rw [hproj, ih (i + 1)]
      constructor
      · intro h j h1 h2
        rcases Nat.eq_or_lt_of_le h1 with rfl | hlt
        · exact hok
        · exact h j hlt (by simp only [List.length_cons] at h2; omega)
      · intro h j h1 h2
        exact h j (by omega) (by simp only [List.length_cons]; omega)

/-- `_exec` returns normally exactly when every command succeeds. -/
theorem execCmds_exit_none_iff (cmds : List Cmd) (ok : Nat → Bool) :
    (execCmds cmds ok).exitCode = none ↔ ∀ j, j < cmds.length → ok j = true := by
  rw [execCmds, execGo_exit_none_iff ok cmds.length cmds 0]
  constructor
  · intro h j hj; exact h j (by omega) (by omega)
  · intro h j _ hj; exact h j (by omega)

/-- `_exec` either returns normally or terminates the process with exit
status 1. -/
theorem execCmds_exit_cases (cmds : List Cmd) (ok : Nat → Bool) :
    (execCmds cmds ok).exitCode = none ∨ (execCmds cmds ok).exitCode = some 1 :=
  execGo_exit_cases ok cmds.length cmds 0

/-! ## Concrete environments used by witnesses and counterexamples -/

/-- A remote configuration accepted by both validators: canonical
`upstream`, fork `origin` (the trailing `""` comes from splitting the
newline-terminated query output). -/
def validRemotes : List String :=
  ["upstream\thttps://github.com/onnx/onnx (fetch)",
   "upstream\thttps://github.com/onnx/onnx (push)",
   "origin\thttps://github.com/someuser/onnx (fetch)",
   "origin\thttps://github.com/someuser/onnx (push)",
   ""]

/-- A remote configuration whose `origin` is the canonical repository
itself. -/
def canonicalOriginRemotes : List String :=
  ["upstream\thttps://github.com/onnx/onnx (fetch)",
   "upstream\thttps://github.com/onnx/onnx (push)",
   "origin\thttps://github.com/onnx/onnx (fetch)",
   "origin\thttps://github.com/onnx/onnx (push)",
   ""]

/-- A remote configuration with `origin` owned by a user name containing
digits and a repository not named `onnx`. -/
def digitOwnerRemotes : List String :=
  ["upstream\thttps://github.com/onnx/onnx (fetch)",
   "upstream\thttps://github.com/onnx/onnx (push)",
   "origin\thttps://github.com/user42/models (fetch)",
   "origin\thttps://github.com/user42/models (push)",
   ""]

/-- A remote configuration whose `upstream` is not on the canonical host. -/
def badUpstreamRemotes : List String :=
  ["upstream\thttps://example.com/onnx/onnx (fetch)",
   "upstream\thttps://example.com/onnx/onnx (push)",
   "origin\thttps://github.com/someuser/onnx (fetch)",
   "origin\thttps://github.com/someuser/onnx (push)",
   ""]

def sampleEnv : RunEnv :=
  { remotes := validRemotes, currentBranch := "master",
    localHasBranch := fun _ => false, originHasBranch := fun _ => false,
    ok := fun _ => true }

def canonicalOriginEnv : RunEnv :=
  { remotes := canonicalOriginRemotes, currentBranch := "master",
    localHasBranch := fun _ => false, originHasBranch := fun _ => false,
    ok := fun _ => true }

def badUpstreamEnv : RunEnv :=
  { remotes := badUpstreamRemotes, currentBranch := "master",
    localHasBranch := fun _ => false, originHasBranch := fun _ => false,
    ok := fun _ => true }

/-- Feature is checked out but exists neither locally nor on `origin`. -/
def removeCornerEnv : RunEnv :=
  { remotes := validRemotes, currentBranch := "myfeature",
    localHasBranch := fun _ => false, originHasBranch := fun _ => false,
    ok := fun _ => true }

/-- Feature exists only locally. -/
def removeLocalEnv : RunEnv :=
  { remotes := validRemotes, currentBranch := "master",
    localHasBranch := fun s => s == "myfeature", originHasBranch := fun _ => false,
    ok := fun _ => true }

/-- Feature exists only on `origin`. -/
def removeOriginEnv : RunEnv :=
  { remotes := validRemotes, currentBranch := "master",
    localHasBranch := fun _ => false, originHasBranch := fun s => s == "myfeature",
    ok := fun _ => true }

/-- Feature exists nowhere and is not checked out. -/
def removeNeitherEnv : RunEnv :=
  { remotes := validRemotes, currentBranch := "master",
    localHasBranch := fun _ => false, originHasBranch := fun _ => false,
    ok := fun _ => true }

/-! ## Claims about the sequencer -/

/-- Claim C5: for every command list and every index `i` at which the
external command exits non-zero (all earlier ones succeeding), the
sequencer runs exactly the commands at positions `0 … i` — so it never
invokes any command at an index greater than `i` and retries nothing —
reports the failure, and terminates the process with non-zero exit
status. -/
theorem claim_C5 (cmds : List Cmd) (ok : Nat → Bool) (i : Nat)
    (hi : i < cmds.length) (hf : ok i = false)
    (hpre : ∀ j, j < i → ok j = true) :
    (execCmds cmds ok).executed = cmds.take (i + 1) ∧
    (execCmds cmds ok).failureReport ≠ none ∧
    (execCmds cmds ok).exitCode = some 1 := by
  have h := execGo_first_fail cmds ok i hi hf (i - 0) 0 rfl (by omega)
    (fun j _ h2 => hpre j h2)
  rw [List.drop_zero] at h
  rw [execCmds, h]
  refine ⟨by simp, by simp, rfl⟩

/-- Witness for C5: the create sequence with a failure at position 1 runs
exactly commands 0 and 1 and exits with status 1. -/
theorem claim_C5_witness :
    (execCmds (Module.create_feature_commands "myfeature") (fun j => !(j == 1))).executed =
      (Module.create_feature_commands "myfeature").take (1 + 1) ∧
    (execCmds (Module.create_feature_commands "myfeature") (fun j => !(j == 1))).failureReport ≠ none ∧
    (execCmds (Module.create_feature_commands "myfeature") (fun j => !(j == 1))).exitCode = some 1 :=
  claim_C5 (Module.create_feature_commands "myfeature") (fun j => !(j == 1)) 1
    (by decide) (by decide) (by decide)

/-- Claim C6: when the first failure happens at position `i` of an
`n`-command list, the failure output lists exactly the commands at
positions `i+1 … n-1`, in original order, each rendered as its
space-joined tokens — unless `i = n-1`, in which case it only instructs
the user to rerun that one command. -/
theorem claim_C6 (cmds : List Cmd) (ok : Nat → Bool) (i : Nat)
    (hi : i < cmds.length) (hf : ok i = false)
    (hpre : ∀ j, j < i → ok j = true) :
    (i < cmds.length - 1 →
      (execCmds cmds ok).failureReport =
        some { failedCmd := renderCmd cmds[i], rerunLast := false,
               remaining := (cmds.drop (i + 1)).map renderCmd }) ∧
    (i = cmds.length - 1 →
      (execCmds cmds ok).failureReport =
        some { failedCmd := renderCmd cmds[i], rerunLast := true,
               remaining := [] }) := by
  have h := execGo_first_fail cmds ok i hi hf (i - 0) 0 rfl (by omega)
    (fun j _ h2 => hpre j h2)
  rw [List.drop_zero] at h
  rw [execCmds, h]
  constructor
  · intro hlt
    have hne : ¬ i = cmds.length - 1 := by omega
    rw [if_neg hne]
  · intro heq
    rw [if_pos heq]

/-- Witness for C6: a failure at position 1 of the 4-command create
sequence lists the rendered commands at positions 2 and 3. -/
theorem claim_C6_witness :
    (execCmds (Module.create_feature_commands "myfeature") (fun j => !(j == 1))).failureReport =
      some { failedCmd := renderCmd (Module.create_feature_commands "myfeature")[1],
             rerunLast := false,
             remaining :=
               ((Module.create_feature_commands "myfeature").drop (1 + 1)).map renderCmd } :=
  (claim_C6 (Module.create_feature_commands "myfeature") (fun j => !(j == 1)) 1
    (by decide) (by decide) (by decide)).1 (by decide)

/-! ## Claims about the workflows -/

/-- Claim C2: after validation succeeds, `rebase F` hands `_exec` exactly
the four commands fetch-upstream, checkout-F, rebase-upstream/master,
submodule-update, in that order (packaged module, the authoritative
implementation; the script's divergent fourth command is claim C3). -/
theorem claim_C2 (env : RunEnv) (f : String)
    (hv : Module.repo_setup_checks env.remotes = none) :
    (Module.runApp env .rebase f).action =
      some (.ran
        [["git", "fetch", "upstream"],
         ["git", "checkout", f],
         ["git", "rebase", "upstream/master"],
         ["git", "submodule", "update", "--init", "--recursive"]]
        (execCmds
          [["git", "fetch", "upstream"],
           ["git", "checkout", f],
           ["git", "rebase", "upstream/master"],
           ["git", "submodule", "update", "--init", "--recursive"]] env.ok)) := by
  unfold Module.runApp
  rw [hv]
  rfl

/-- Witness for C2 at a concrete valid environment. -/
theorem claim_C2_witness :
    (Module.runApp sampleEnv .rebase "myfeature").action =
      some (.ran
        [["git", "fetch", "upstream"],
         ["git", "checkout", "myfeature"],
         ["git", "rebase", "upstream/master"],
         ["git", "submodule", "update", "--init", "--recursive"]]
        (execCmds
          [["git", "fetch", "upstream"],
           ["git", "checkout", "myfeature"],
           ["git", "rebase", "upstream/master"],
           ["git", "submodule", "update", "--init", "--recursive"]] sampleEnv.ok)) :=
  claim_C2 sampleEnv "myfeature" (by decide)

/-- Claim C8: after validation succeeds, `create F` hands `_exec` exactly
the four commands fetch, checkout -b … --no-track, submodule update,
push --set-upstream, in that exact order; the script builds the same
list. -/
theorem claim_C8 (env : RunEnv) (f : String)
    (hv : Module.repo_setup_checks env.remotes = none) :
    (Module.runApp env .create f).action =
      some (.ran
        [["git", "fetch", "upstream"],
         ["git", "checkout", "-b", f, "upstream/master", "--no-track"],
         ["git", "submodule", "update", "--init", "--recursive"],
         ["git", "push", "--set-upstream", "origin", f]]
        (execCmds
          [["git", "fetch", "upstream"],
           ["git", "checkout", "-b", f, "upstream/master", "--no-track"],
           ["git", "submodule", "update", "--init", "--recursive"],
           ["git", "push", "--set-upstream", "origin", f]] env.ok)) ∧
    Script.create_feature_commands f =
      [["git", "fetch", "upstream"],
       ["git", "checkout", "-b", f, "upstream/master", "--no-track"],
       ["git", "submodule", "update", "--init", "--recursive"],
       ["git", "push", "--set-upstream", "origin", f]] := by
  constructor
  · unfold Module.runApp
    rw [hv]
    rfl
  · rfl

/-- Witness for C8 at a concrete valid environment. -/
theorem claim_C8_witness :
    (Module.runApp sampleEnv .create "myfeature").action =
      some (.ran
        [["git", "fetch", "upstream"],
         ["git", "checkout", "-b", "myfeature", "upstream/master", "--no-track"],
         ["git", "submodule", "update", "--init", "--recursive"],
         ["git", "push", "--set-upstream", "origin", "myfeature"]]
        (execCmds
          [["git", "fetch", "upstream"],
           ["git", "checkout", "-b", "myfeature", "upstream/master", "--no-track"],
           ["git", "submodule", "update", "--init", "--recursive"],
           ["git", "push", "--set-upstream", "origin", "myfeature"]] sampleEnv.ok)) ∧
    Script.create_feature_commands "myfeature" =
      [["git", "fetch", "upstream"],
       ["git", "checkout", "-b", "myfeature", "upstream/master", "--no-track"],
       ["git", "submodule", "update", "--init", "--recursive"],
       ["git", "push", "--set-upstream", "origin", "myfeature"]] :=
  claim_C8 sampleEnv "myfeature" (by decide)

/-! ## Claims about the validator -/

/-- If some check fails, the whole run is rejected: error printed, no
action dispatched, exit status 1. -/
theorem runApp_rejected (env : RunEnv) (a : GFAction) (f : String)
    (h : Module.repo_setup_checks env.remotes ≠ none) :
    (Module.runApp env a f).validatorError ≠ none ∧
    (Module.runApp env a f).action = none ∧
    (Module.runApp env a f).exitCode = 1 := by
  obtain ⟨msg, hmsg⟩ := Option.ne_none_iff_exists'.mp h
  unfold Module.runApp
  rw [hmsg]
  exact ⟨by simp, rfl, rfl⟩

/-- If every check passes, the chosen action runs and determines the
exit status. -/
theorem runApp_accepted (env : RunEnv) (a : GFAction) (f : String)
    (hv : Module.repo_setup_checks env.remotes = none) :
    Module.runApp env a f =
      { validatorError := none,
        action := some (Module.run_action env a f),
        exitCode := Module.actionExitCode (Module.run_action env a f) } := by
  unfold Module.runApp
  rw [hv]

/-- Claim C1: whenever the `origin` fetch URL matches one of the
canonical-project URL-prefix patterns, the validator rejects — error
message, exit status 1 — before any workflow command is executed,
whatever the requested action. -/
theorem claim_C1 (env : RunEnv) (a : GFAction) (f : String)
    (h : Module.origin_official_fetch env.remotes = true) :
    (Module.runApp env a f).validatorError ≠ none ∧
    (Module.runApp env a f).action = none ∧
    (Module.runApp env a f).exitCode = 1 := by
  refine runApp_rejected env a f ?_
  unfold Module.repo_setup_checks
  rw [h]
  split_ifs <;> simp_all

/-- Witness for C1: `origin` pointing at the canonical repository is
rejected. -/
theorem claim_C1_witness :
    (Module.runApp canonicalOriginEnv .create "myfeature").validatorError ≠ none ∧
    (Module.runApp canonicalOriginEnv .create "myfeature").action = none ∧
    (Module.runApp canonicalOriginEnv .create "myfeature").exitCode = 1 :=
  claim_C1 canonicalOriginEnv .create "myfeature" (by decide)

/-- Claim C7: whenever the `upstream` fetch URL or the `upstream` push
URL matches none of the accepted canonical-prefix patterns, the validator
rejects before any workflow command is executed. -/
theorem claim_C7 (env : RunEnv) (a : GFAction) (f : String)
    (h : Module.upstream_ok env.remotes "fetch" = false ∨
         Module.upstream_ok env.remotes "push" = false) :
    (Module.runApp env a f).validatorError ≠ none ∧
    (Module.runApp env a f).action = none ∧
    (Module.runApp env a f).exitCode = 1 := by
  refine runApp_rejected env a f ?_
  unfold Module.repo_setup_checks
  rcases h with h | h <;> rw [h] <;> split_ifs <;> simp_all

/-- Witness for C7: an `upstream` on a non-canonical host is rejected. -/
theorem claim_C7_witness :
    (Module.runApp badUpstreamEnv .rebase "myfeature").validatorError ≠ none ∧
    (Module.runApp badUpstreamEnv .rebase "myfeature").action = none ∧
    (Module.runApp badUpstreamEnv .rebase "myfeature").exitCode = 1 :=
  claim_C7 badUpstreamEnv .rebase "myfeature" (Or.inl (by decide))

/-! ## The divergence between the two implementations -/

/-- Claim C3: the script and the packaged module are not equivalent.  A
canonical-`origin` configuration is accepted by the script's validator
and rejected by the module's (fork-only check); a digits-in-owner
configuration is accepted by the module's validator and rejected by the
script's (broader pattern set); and for every feature name the fourth
rebase command differs between the two (`git submodule --init
--recursive` vs `git submodule update --init --recursive`). -/
theorem claim_C3 :
    (Script.repo_setup_checks canonicalOriginRemotes = none ∧
     Module.repo_setup_checks canonicalOriginRemotes ≠ none) ∧
    (Module.repo_setup_checks digitOwnerRemotes = none ∧
     Script.repo_setup_checks digitOwnerRemotes ≠ none) ∧
    (∀ f, (Script.rebase_feature_commands f)[3]? =
            some ["git", "submodule", "--init", "--recursive"] ∧
          (Module.rebase_feature_commands f)[3]? =
            some ["git", "submodule", "update", "--init", "--recursive"] ∧
          (Script.rebase_feature_commands f)[3]? ≠
            (Module.rebase_feature_commands f)[3]?) := by
  refine ⟨by decide, by decide, fun f => ⟨rfl, rfl, ?_⟩⟩
  rw [show (Script.rebase_feature_commands f)[3]? =
        some ["git", "submodule", "--init", "--recursive"] from rfl,
      show (Module.rebase_feature_commands f)[3]? =
        some ["git", "submodule", "update", "--init", "--recursive"] from rfl]
  decide

/-! ## Claims about the remove workflow -/

/-- Claim C4 (amended): if `F` exists only locally, `remove` builds
exactly the optional checkout of `upstream/master` followed by the local
branch deletion; if only on `origin`, the optional checkout followed by
the remote deletion; if `F` exists in neither place AND the current
branch is not `F`, it reports the not-found error, builds no command and
exits with status 1. -/
theorem claim_C4 (env : RunEnv) (f : String) :
    (env.localHasBranch f = true → env.originHasBranch f = false →
      Module.remove_feature_commands env f =
        (if env.currentBranch = f then [["git", "checkout", "upstream/master"]] else []) ++
        [["git", "branch", "-d", f]]) ∧
    (env.localHasBranch f = false → env.originHasBranch f = true →
      Module.remove_feature_commands env f =
        (if env.currentBranch = f then [["git", "checkout", "upstream/master"]] else []) ++
        [["git", "push", "origin", ":" ++ f]]) ∧
    (env.localHasBranch f = false → env.originHasBranch f = false →
      env.currentBranch ≠ f →
      (Module.remove_feature_action env f).isNotFound = true ∧
      Module.remove_feature_commands env f = [] ∧
      (Module.repo_setup_checks env.remotes = none →
        (Module.runApp env .remove f).exitCode = 1 ∧
        (Module.runApp env .remove f).action = some (Module.remove_feature_action env f))) := by
  refine ⟨?_, ?_, ?_⟩
  · intro hl ho
    simp [Module.remove_feature_commands, hl, ho]
  · intro hl ho
    simp [Module.remove_feature_commands, hl, ho]
  · intro hl ho hc
    have hcmds : Module.remove_feature_commands env f = [] := by
      simp [Module.remove_feature_commands, hl, ho, hc]
    have hact : Module.remove_feature_action env f =
        .notFound ("Branch \x27" ++ f ++
          "\x27 not found, neither in local repository nor in \x27origin\x27 remote") := by
      rw [Module.remove_feature_action, hcmds]
      rfl
    refine ⟨by rw [hact]; rfl, hcmds, ?_⟩
    intro hv
    rw [runApp_accepted env .remove f hv]
    rw [show Module.run_action env .remove f = Module.remove_feature_action env f from rfl]
    rw [hact]
    exact ⟨rfl, rfl⟩

/-- Witness for C4 (amended): the three cases at concrete environments. -/
theorem claim_C4_witness :
    (Module.remove_feature_commands removeLocalEnv "myfeature" =
      (if removeLocalEnv.currentBranch = "myfeature" then
        [["git", "checkout", "upstream/master"]] else []) ++
      [["git", "branch", "-d", "myfeature"]]) ∧
    (Module.remove_feature_commands removeOriginEnv "myfeature" =
      (if removeOriginEnv.currentBranch = "myfeature" then
        [["git", "checkout", "upstream/master"]] else []) ++
      [["git", "push", "origin", ":" ++ "myfeature"]]) ∧
    (Module.remove_feature_action removeNeitherEnv "myfeature").isNotFound = true :=
  ⟨(claim_C4 removeLocalEnv "myfeature").1 (by decide) (by decide),
   (claim_C4 removeOriginEnv "myfeature").2.1 (by decide) (by decide),
   ((claim_C4 removeNeitherEnv "myfeature").2.2 (by decide) (by decide)
      (by decide)).1⟩

/-- Counterexample to C4 as stated: with `myfeature` checked out but
existing neither locally nor on `origin`, `remove` does not report the
not-found error and builds one command instead of zero, and with all
commands succeeding the process exits 0, not non-zero. -/
theorem claim_C4_counterexample :
    removeCornerEnv.localHasBranch "myfeature" = false ∧
    removeCornerEnv.originHasBranch "myfeature" = false ∧
    Module.remove_feature_commands removeCornerEnv "myfeature" =
      [["git", "checkout", "upstream/master"]] ∧
    (Module.remove_feature_action removeCornerEnv "myfeature").isNotFound = false ∧
    (Module.runApp removeCornerEnv .remove "myfeature").exitCode = 0 := by
  decide

/-- Claim C10: in the `remove` workflow, when the checked-out branch
equals `F` but `F` exists neither locally nor on `origin`, no not-found
error is reported: exactly the single command `git checkout
upstream/master` is built and run; and the not-found error is raised if
and only if all three condition checks are false. -/
theorem claim_C10 (env : RunEnv) (f : String) :
    (env.currentBranch = f → env.localHasBranch f = false →
      env.originHasBranch f = false →
      Module.remove_feature_commands env f = [["git", "checkout", "upstream/master"]] ∧
      Module.remove_feature_action env f =
        .ran [["git", "checkout", "upstream/master"]]
          (execCmds [["git", "checkout", "upstream/master"]] env.ok)) ∧
    ((Module.remove_feature_action env f).isNotFound = true ↔
      (env.currentBranch ≠ f ∧ env.localHasBranch f = false ∧
       env.originHasBranch f = false)) := by
  constructor
  · intro hc hl ho
    have hcmds : Module.remove_feature_commands env f =
        [["git", "checkout", "upstream/master"]] := by
      simp [Module.remove_feature_commands, hc, hl, ho]
    refine ⟨hcmds, ?_⟩
    rw [Module.remove_feature_action, hcmds]
    rfl
  · by_cases hc : env.currentBranch = f <;>
      cases hl : env.localHasBranch f <;>
      cases ho : env.originHasBranch f <;>
      simp [Module.remove_feature_action, Module.remove_feature_commands,
        ActionResult.isNotFound, hc, hl, ho]

/-- Witness for C10: the concrete corner environment builds and runs
exactly the checkout command. -/
theorem claim_C10_witness :
    Module.remove_feature_commands removeCornerEnv "myfeature" =
      [["git", "checkout", "upstream/master"]] ∧
    Module.remove_feature_action removeCornerEnv "myfeature" =
      .ran [["git", "checkout", "upstream/master"]]
        (execCmds [["git", "checkout", "upstream/master"]] removeCornerEnv.ok) :=
  (claim_C10 removeCornerEnv "myfeature").1 (by decide) (by decide) (by decide)

/-! ## The whole-program exit status -/

/-- Exit status of a sequencer-running action: 0 or 1, and 0 exactly when
every command of the list succeeds. -/
theorem actionExit_ran (cmds : List Cmd) (ok : Nat → Bool) :
    (Module.actionExitCode (.ran cmds (execCmds cmds ok)) = 0 ∨
     Module.actionExitCode (.ran cmds (execCmds cmds ok)) = 1) ∧
    (Module.actionExitCode (.ran cmds (execCmds cmds ok)) = 0 ↔
      ∀ j, j < cmds.length → ok j = true) := by
  rcases execCmds_exit_cases cmds ok with h | h
  · rw [show Module.actionExitCode (.ran cmds (execCmds cmds ok)) =
        (match (execCmds cmds ok).exitCode with | some c => c | none => 0) from rfl, h]
    exact ⟨Or.inl rfl, by simpa using (execCmds_exit_none_iff cmds ok).mp h⟩
  · rw [show Module.actionExitCode (.ran cmds (execCmds cmds ok)) =
        (match (execCmds cmds ok).exitCode with | some c => c | none => 0) from rfl, h]
    refine ⟨Or.inr rfl, ?_, ?_⟩
    · intro h0
      simp at h0
    · intro hall
      have hnone := (execCmds_exit_none_iff cmds ok).mpr hall
      rw [h] at hnone
      simp at hnone

/-- Claim C9 (amended): for every action and feature name the exit status
is 0 or 1, and it is 0 exactly when validation passes, the built command
list is non-empty (automatic except for `remove`, where emptiness is the
not-found error), and every command in the built sequence exits zero. -/
theorem claim_C9 (env : RunEnv) (a : GFAction) (f : String) :
    ((Module.runApp env a f).exitCode = 0 ∨ (Module.runApp env a f).exitCode = 1) ∧
    ((Module.runApp env a f).exitCode = 0 ↔
      (Module.repo_setup_checks env.remotes = none ∧
       Module.action_commands env a f ≠ [] ∧
       ∀ j, j < (Module.action_commands env a f).length → env.ok j = true)) := by
  cases hv : Module.repo_setup_checks env.remotes with
  | some msg =>
    have hr : Module.runApp env a f =
        { validatorError := some msg, action := none, exitCode := 1 } := by
      unfold Module.runApp
      rw [hv]
    rw [hr]
    refine ⟨Or.inr rfl, ?_, ?_⟩
    · intro h0
      simp at h0
    · rintro ⟨h1, -, -⟩
      exact absurd h1 (by simp)
  | none =>
    rw [runApp_accepted env a f hv]
    cases a with
    | create =>
      rw [show Module.run_action env .create f =
            .ran (Module.create_feature_commands f)
              (execCmds (Module.create_feature_commands f) env.ok) from rfl]
      have hm := actionExit_ran (Module.create_feature_commands f) env.ok
      refine ⟨hm.1, ?_, ?_⟩
      · intro h0
        exact ⟨rfl, by simp [Module.action_commands, Module.create_feature_commands],
          hm.2.mp h0⟩
      · rintro ⟨-, -, hall⟩
        exact hm.2.mpr hall
    | rebase =>
      rw [show Module.run_action env .rebase f =
            .ran (Module.rebase_feature_commands f)
              (execCmds (Module.rebase_feature_commands f) env.ok) from rfl]
      have hm := actionExit_ran (Module.rebase_feature_commands f) env.ok
      refine ⟨hm.1, ?_, ?_⟩
      · intro h0
        exact ⟨rfl, by simp [Module.action_commands, Module.rebase_feature_commands],
          hm.2.mp h0⟩
      · rintro ⟨-, -, hall⟩
        exact hm.2.mpr hall
    | push =>
      rw [show Module.run_action env .push f =
            .ran (Module.push_feature_commands f)
              (execCmds (Module.push_feature_commands f) env.ok) from rfl]
      have hm := actionExit_ran (Module.push_feature_commands f) env.ok
      refine ⟨hm.1, ?_, ?_⟩
      · intro h0
        exact ⟨rfl, by simp [Module.action_commands, Module.push_feature_commands],
          hm.2.mp h0⟩
      · rintro ⟨-, -, hall⟩
        exact hm.2.mpr hall
    | remove =>
      by_cases hne : Module.remove_feature_commands env f = []
      · have hact : Module.run_action env .remove f =
            .notFound ("Branch \x27" ++ f ++
              "\x27 not found, neither in local repository nor in \x27origin\x27 remote") := by
          simp only [Module.run_action, Module.remove_feature_action]
          rw [if_pos hne]
        rw [hact]
        refine ⟨Or.inr rfl, ?_, ?_⟩
        · intro h0
          simp [Module.actionExitCode] at h0
        · rintro ⟨-, h2, -⟩
          exact absurd hne h2
      · have hact : Module.run_action env .remove f =
            .ran (Module.remove_feature_commands env f)
              (execCmds (Module.remove_feature_commands env f) env.ok) := by
          simp only [Module.run_action, Module.remove_feature_action]
          rw [if_neg hne]
        rw [hact]
        have hm := actionExit_ran (Module.remove_feature_commands env f) env.ok
        refine ⟨hm.1, ?_, ?_⟩
        · intro h0
          exact ⟨rfl, hne, hm.2.mp h0⟩
        · rintro ⟨-, -, hall⟩
          exact hm.2.mpr hall

/-- Witness for C9 at a concrete environment and action. -/
theorem claim_C9_witness :
    ((Module.runApp sampleEnv .create "myfeature").exitCode = 0 ∨
     (Module.runApp sampleEnv .create "myfeature").exitCode = 1) ∧
    ((Module.runApp sampleEnv .create "myfeature").exitCode = 0 ↔
      (Module.repo_setup_checks sampleEnv.remotes = none ∧
       Module.action_commands sampleEnv .create "myfeature" ≠ [] ∧
       ∀ j, j < (Module.action_commands sampleEnv .create "myfeature").length →
         sampleEnv.ok j = true)) :=
  claim_C9 sampleEnv .create "myfeature"

/-- Counterexample to C9 as stated: `remove myfeature` with the branch
existing neither locally nor on `origin` — but currently checked out —
exits 0, not 1. -/
theorem claim_C9_counterexample :
    removeCornerEnv.localHasBranch "myfeature" = false ∧
    removeCornerEnv.originHasBranch "myfeature" = false ∧
    Module.repo_setup_checks removeCornerEnv.remotes = none ∧
    ¬ ((Module.runApp removeCornerEnv .remove "myfeature").exitCode = 1) := by
  decide
